import Mathlib

/-!
Shallow embedding of the conversation-history synchronization logic of
`src/backend/controllers/whatsapp.js` (functions `syncConversationHistory`,
lines 470-582, and `syncAllConversationsHistory`, lines 585-721), together
with theorems checking the specification's claims about it.

Modelling conventions:
* JS strings are Lean `String`; epoch-second timestamps are `Int`.
* The store datetime produced by `new Date(t * 1000).toISOString()` is
  represented by the epoch-millisecond value the ISO string denotes
  (the ISO rendering of a millisecond instant is injective).
* The supabase read of existing `message_id` values returns `data` that may
  be `null` on failure; the source maps that to an empty set via
  `existingMessages?.map(m => m.message_id) || []`.  We model the failure
  mode with an oracle `lookupFails`.
* `saveMessage` either inserts one row and returns it (truthy), or fails
  (falsy result or a thrown error, both absorbed by the loop); oracle
  `saveOk` selects the outcome per external message id.
* `Chat.fetchMessages` can reject; flag `fetchFails` models that.
* Side effects on the store are made explicit by threading a `Store` value;
  the persistence attempts and timestamp updates of a pass are additionally
  recorded in an event trace, in the order the source performs them.
-/

/-- A messaging-session-native message: the fields the sync code reads are
`msg.id._serialized`, `msg.body`, `msg.fromMe` and `msg.timestamp`
(epoch seconds). -/
structure NativeMessage where
  id : String
  body : String
  fromMe : Bool
  timestamp : Int
deriving DecidableEq

/-- A live chat of the messaging session: `chat.id._serialized` plus the
messages the session holds for it.  `fetchFails` models
`chat.fetchMessages` rejecting its promise. -/
structure Chat where
  id_serialized : String
  messages : List NativeMessage
  fetchFails : Bool
deriving DecidableEq

/-- Models `chat.fetchMessages(\x7b limit \x7d)`: up to `limit` messages of the
chat, or a thrown error. -/
def Chat.fetchMessages (c : Chat) (limit : Nat) : Except Unit (List NativeMessage) :=
  if c.fetchFails then .error () else .ok (c.messages.take limit)

/-- A row of the `conversations` table (the columns the sync code reads:
`id`, `phone_number`, `user_id`, `last_message_at`; unused columns are
omitted). -/
structure Conversation where
  id : String
  phone_number : String
  user_id : Option String
  last_message_at : Int
deriving DecidableEq

/-- A row of the `messages` table as written by `saveMessage(conversationId,
body, isFromMe, messageId, timestamp, userId)`. -/
structure MessageRow where
  conversation_id : String
  message_id : String
  body : String
  is_from_me : Bool
  timestamp : Int
  user_id : Option String
deriving DecidableEq

/-- The persistence store: the two tables the sync code touches. -/
structure Store where
  conversations : List Conversation
  messages : List MessageRow
deriving DecidableEq

/-- The ambient collaborators of a sync call: connection state of the
messaging client, its chat list, and the failure oracles for the store reads
and writes described in the module docstring. -/
structure Env where
  connected : Bool
  chats : List Chat
  lookupFails : String → Bool
  saveOk : String → Bool
  pageFails : Bool

/-- JS `String.replace(pat, '')` with a plain-string pattern removes only the
first occurrence of `pat` (char-list version). -/
def replaceFirstAux (pat : List Char) : List Char → List Char
  | [] => []
  | c :: cs =>
    if pat.isPrefixOf (c :: cs) then (c :: cs).drop pat.length
    else c :: replaceFirstAux pat cs

/-- Models `s.replace('@c.us', '')`, applied by the source to both the chat
id and the conversation phone number before comparing them. -/
def stripCUs (s : String) : String :=
  String.mk (replaceFirstAux "@c.us".toList s.toList)

/-- Models `chats.find(chat => chatNumber === conversationNumber)` where both
sides are stripped of `@c.us` (whatsapp.js lines 499-503 and 624-628). -/
def findTargetChat (chats : List Chat) (conversation : Conversation) : Option Chat :=
  chats.find? (fun chat => stripCUs chat.id_serialized = stripCUs conversation.phone_number)

/-- The store read `select message_id from messages where conversation_id = X`
used to build the deduplication set. -/
def existingIdsOf (store : Store) (conversationId : String) : List String :=
  (store.messages.filter (fun r => r.conversation_id = conversationId)).map (·.message_id)

/-- Models `new Date(t * 1000).toISOString()`, represented by the
millisecond value the ISO string denotes. -/
def toStoreDatetime (t : Int) : Int := t * 1000

/-- Models `messages.reduce((latest, msg) => msg.timestamp > latest.timestamp
? msg : latest)` on the nonempty batch `m :: ms`. -/
def latestMessage (m : NativeMessage) (ms : List NativeMessage) : NativeMessage :=
  ms.foldl (fun latest msg => if latest.timestamp < msg.timestamp then msg else latest) m

/-- Fold the binary maximum of timestamps over a batch, starting from `t`. -/
def foldMaxTs (t : Int) (ms : List NativeMessage) : Int :=
  ms.foldl (fun a x => max a x.timestamp) t

/-- The maximum timestamp occurring in the nonempty batch `m :: ms`
(specification-side notion used to state the timestamp claims). -/
def maxTimestamp (m : NativeMessage) (ms : List NativeMessage) : Int :=
  foldMaxTs m.timestamp ms

/-- One observable side-effecting step of a sync pass: a call to
`saveMessage` for a message that survived deduplication, or the
`last_message_at` update of a conversation. -/
inductive SyncEvent where
  | save (conversationId : String) (msg : NativeMessage)
  | updateTimestamp (conversationId : String) (t : Int)
deriving DecidableEq

/-- The row inserted by `saveMessage(conversationId, msg.body, msg.fromMe,
msg.id._serialized, new Date(msg.timestamp * 1000).toISOString(), userId)`. -/
def saveMessageRow (conversationId : String) (msg : NativeMessage)
    (userId : Option String) : MessageRow :=
  { conversation_id := conversationId
    message_id := msg.id
    body := msg.body
    is_from_me := msg.fromMe
    timestamp := toStoreDatetime msg.timestamp
    user_id := userId }

/-- Models the update `supabase.from('conversations').update(\x7b last_message_at \x7d).eq('id', id)`. -/
def updateLastMessageAt (store : Store) (conversationId : String) (t : Int) : Store :=
  { store with
      conversations := store.conversations.map
        (fun c => if c.id = conversationId then { c with last_message_at := t } else c) }

/-- Mutable state of the per-message save loop: the two counters, the store,
and the trace of persistence attempts. -/
structure SaveLoopState where
  newMessagesSaved : Nat
  skippedMessages : Nat
  store : Store
  trace : List SyncEvent
deriving DecidableEq

/-- The per-message loop shared by both sync entry points (whatsapp.js lines
526-550 and 649-673): a message whose id is in `existingMessageIds` is
skipped and counted; otherwise `saveMessage` is attempted (recorded in the
trace), a success inserts one row and bumps the saved counter, and a failure
is absorbed. -/
def saveLoop (env : Env) (conversationId : String) (userId : Option String)
    (existingMessageIds : List String) :
    List NativeMessage → SaveLoopState → SaveLoopState
  | [], st => st
  | msg :: rest, st =>
    if existingMessageIds.contains msg.id then
      saveLoop env conversationId userId existingMessageIds rest
        { st with skippedMessages := st.skippedMessages + 1 }
    else
      let st1 :=
        if env.saveOk msg.id then
          { st with
              newMessagesSaved := st.newMessagesSaved + 1
              store := { st.store with
                messages := st.store.messages ++ [saveMessageRow conversationId msg userId] } }
        else st
      saveLoop env conversationId userId existingMessageIds rest
        { st1 with trace := st1.trace ++ [SyncEvent.save conversationId msg] }

/-- The HTTP-level outcomes of `syncConversationHistory`: 503 disconnected,
404 conversation not found, 404 chat not found, 500 server error, or the 200
payload with `totalMessages`, `newMessagesSaved`, `skippedMessages`. -/
inductive SyncOneResponse where
  | disconnected
  | notFound
  | chatNotFound
  | serverError
  | ok (totalMessages newMessagesSaved skippedMessages : Nat)
deriving DecidableEq

/-- Embedding of `syncConversationHistory` (whatsapp.js 470-582): guard on the
client connection, load the conversation row (`.single()` requires exactly
one match), locate the live chat, fetch up to 999999 messages (a rejection
is caught by the outer handler as a 500), build the dedup set (a failed
lookup degrades to the empty set), run the save loop, and finally update
`last_message_at` when the batch is nonempty. -/
def syncConversationHistory (env : Env) (store : Store) (conversationId : String) :
    SyncOneResponse × Store × List SyncEvent :=
  if !env.connected then (.disconnected, store, [])
  else
    match store.conversations.filter (fun c => c.id = conversationId) with
    | [conversation] =>
      match findTargetChat env.chats conversation with
      | none => (.chatNotFound, store, [])
      | some targetChat =>
        match targetChat.fetchMessages 999999 with
        | .error _ => (.serverError, store, [])
        | .ok messages =>
          let existingData : Option (List String) :=
            if env.lookupFails conversationId then none
            else some (existingIdsOf store conversationId)
          let existingMessageIds : List String := existingData.getD []
          let st := saveLoop env conversationId conversation.user_id existingMessageIds
            messages ⟨0, 0, store, []⟩
          match messages with
          | [] => (.ok 0 st.newMessagesSaved st.skippedMessages, st.store, st.trace)
          | m :: ms =>
            let latest := latestMessage m ms
            (.ok (m :: ms).length st.newMessagesSaved st.skippedMessages,
              updateLastMessageAt st.store conversationId (toStoreDatetime latest.timestamp),
              st.trace ++ [SyncEvent.updateTimestamp conversationId (toStoreDatetime latest.timestamp)])
    | _ => (.notFound, store, [])

/-- One entry of the bulk sync's `syncResults` array. -/
structure SyncResultEntry where
  conversationId : String
  phoneNumber : String
  newMessages : Nat
deriving DecidableEq

/-- Accumulator of the bulk sync loop: grand totals, per-conversation
entries, the store, and the event trace. -/
structure BulkState where
  totalNewMessages : Nat
  conversationsSynced : Nat
  syncResults : List SyncResultEntry
  store : Store
  trace : List SyncEvent
deriving DecidableEq

/-- Body of the bulk sync's per-conversation loop (whatsapp.js lines
621-701): a missing chat is skipped with `continue`; a rejected fetch is
absorbed by the per-conversation catch; otherwise dedup + save with a
100-message cap, then the timestamp update, and an entry is pushed only when
at least one message was newly saved. -/
def syncOneInBulk (env : Env) (st : BulkState) (conversation : Conversation) : BulkState :=
  match findTargetChat env.chats conversation with
  | none => st
  | some targetChat =>
    match targetChat.fetchMessages 100 with
    | .error _ => st
    | .ok messages =>
      let existingData : Option (List String) :=
        if env.lookupFails conversation.id then none
        else some (existingIdsOf st.store conversation.id)
      let existingMessageIds : List String := existingData.getD []
      let s := saveLoop env conversation.id conversation.user_id existingMessageIds
        messages ⟨0, 0, st.store, []⟩
      let afterUpdate : Store × List SyncEvent :=
        match messages with
        | [] => (s.store, s.trace)
        | m :: ms =>
          let latest := latestMessage m ms
          (updateLastMessageAt s.store conversation.id (toStoreDatetime latest.timestamp),
            s.trace ++ [SyncEvent.updateTimestamp conversation.id (toStoreDatetime latest.timestamp)])
      if s.newMessagesSaved > 0 then
        { totalNewMessages := st.totalNewMessages + s.newMessagesSaved
          conversationsSynced := st.conversationsSynced + 1
          syncResults := st.syncResults ++
            [⟨conversation.id, conversation.phone_number, s.newMessagesSaved⟩]
          store := afterUpdate.1
          trace := st.trace ++ afterUpdate.2 }
      else
        { st with store := afterUpdate.1, trace := st.trace ++ afterUpdate.2 }

/-- Insertion step for the descending order on `last_message_at` used by the
bulk sync's page query. -/
def insertDescByLastMessageAt (c : Conversation) :
    List Conversation → List Conversation
  | [] => [c]
  | d :: ds =>
    if c.last_message_at ≤ d.last_message_at then d :: insertDescByLastMessageAt c ds
    else c :: d :: ds

/-- Sorting by `last_message_at` descending, modelling
`.order('last_message_at', \x7b ascending: false \x7d)`. -/
def sortDescByLastMessageAt : List Conversation → List Conversation
  | [] => []
  | c :: cs => insertDescByLastMessageAt c (sortDescByLastMessageAt cs)

/-- The page of tracked conversations the bulk sync iterates:
`.order('last_message_at', \x7b ascending: false \x7d).limit(200)`. -/
def conversationsPage (store : Store) : List Conversation :=
  (sortDescByLastMessageAt store.conversations).take 200

/-- The HTTP-level outcomes of `syncAllConversationsHistory`: 503
disconnected, 500 when the page query errors, or the 200 payload. -/
inductive SyncAllResponse where
  | disconnected
  | dbError
  | ok (totalNewMessages conversationsSynced totalConversationsChecked : Nat)
      (syncResults : List SyncResultEntry)
deriving DecidableEq

/-- Embedding of `syncAllConversationsHistory` (whatsapp.js 585-721): guard on the
connection, load the conversation page, then fold the per-conversation body
over it and report the totals. -/
def syncAllConversationsHistory (env : Env) (store : Store) :
    SyncAllResponse × Store × List SyncEvent :=
  if !env.connected then (.disconnected, store, [])
  else if env.pageFails then (.dbError, store, [])
  else
    let conversations := conversationsPage store
    let final := conversations.foldl (syncOneInBulk env) ⟨0, 0, [], store, []⟩
    (.ok final.totalNewMessages final.conversationsSynced conversations.length
        final.syncResults,
      final.store, final.trace)

/-- The `totalConversationsChecked` field of a bulk response, when it is a
200 payload. -/
def totalChecked : SyncAllResponse → Option Nat
  | .ok _ _ n _ => some n
  | _ => none

/-- The `(conversation_id, message_id)` pairs of a list of message rows. -/
def rowPairs (rows : List MessageRow) : List (String × String) :=
  rows.map (fun r => (r.conversation_id, r.message_id))

/-- At most one `messages` row per `(conversation_id, message_id)` pair. -/
def pairsUnique (store : Store) : Prop :=
  (rowPairs store.messages).Nodup

instance (store : Store) : Decidable (pairsUnique store) := by
  unfold pairsUnique; infer_instance

/-! ### Basic lemmas about the save loop -/

theorem saveLoop_spec (env : Env) (cid : String) (uid : Option String)
    (ids : List String) (msgs : List NativeMessage) (st : SaveLoopState) :
    saveLoop env cid uid ids msgs st =
      { newMessagesSaved := st.newMessagesSaved +
          (msgs.filter (fun m => !(ids.contains m.id) && env.saveOk m.id)).length
        skippedMessages := st.skippedMessages +
          (msgs.filter (fun m => ids.contains m.id)).length
        store := { st.store with messages := st.store.messages ++
          ((msgs.filter (fun m => !(ids.contains m.id) && env.saveOk m.id)).map
            (fun m => saveMessageRow cid m uid)) }
        trace := st.trace ++
          ((msgs.filter (fun m => !(ids.contains m.id))).map (SyncEvent.save cid)) } := by
  induction msgs generalizing st with
  | nil => simp [saveLoop]
  | cons m rest ih =>
    by_cases hc : m.id ∈ ids
    · simp [saveLoop, hc, ih, Nat.add_assoc, Nat.add_comm 1]
    · by_cases hs : env.saveOk m.id
      · simp [saveLoop, hc, hs, ih, Nat.add_assoc, Nat.add_comm 1, List.append_assoc]
      · simp [saveLoop, hc, hs, ih, Nat.add_assoc, Nat.add_comm 1, List.append_assoc]

/-! ### The reduce picking the latest message computes the batch maximum -/

theorem latestMessage_timestamp (m : NativeMessage) (ms : List NativeMessage) :
    (latestMessage m ms).timestamp = maxTimestamp m ms := by
  induction ms generalizing m with
  | nil => rfl
  | cons x xs ih =>
    have h1 : latestMessage m (x :: xs) =
        latestMessage (if m.timestamp < x.timestamp then x else m) xs := rfl
    have h2 : (if m.timestamp < x.timestamp then x else m).timestamp =
        max m.timestamp x.timestamp := by
      by_cases h : m.timestamp < x.timestamp
      · simp [h, max_eq_right (le_of_lt h)]
      · simp [h, max_eq_left (not_lt.mp h)]
    rw [h1, ih]
    show foldMaxTs (if m.timestamp < x.timestamp then x else m).timestamp xs =
      foldMaxTs m.timestamp (x :: xs)
    rw [h2]
    rfl

theorem le_foldMaxTs (t : Int) (ms : List NativeMessage) : t ≤ foldMaxTs t ms := by
  induction ms generalizing t with
  | nil => simp [foldMaxTs]
  | cons x xs ih =>
    exact le_trans (le_max_left t x.timestamp) (ih (max t x.timestamp))

theorem mem_le_foldMaxTs (t : Int) (ms : List NativeMessage) :
    ∀ x ∈ ms, x.timestamp ≤ foldMaxTs t ms := by
  induction ms generalizing t with
  | nil => intro x hx; cases hx
  | cons y ys ih =>
    intro x hx
    rcases List.mem_cons.mp hx with h | h
    · subst h
      exact le_trans (le_max_right t x.timestamp) (le_foldMaxTs _ ys)
    · exact ih (max t y.timestamp) x h

theorem foldMaxTs_eq_or_mem (t : Int) (ms : List NativeMessage) :
    foldMaxTs t ms = t ∨ ∃ x ∈ ms, foldMaxTs t ms = x.timestamp := by
  induction ms generalizing t with
  | nil => exact Or.inl rfl
  | cons y ys ih =>
    have hstep : foldMaxTs t (y :: ys) = foldMaxTs (max t y.timestamp) ys := rfl
    rcases ih (max t y.timestamp) with h | ⟨x, hx, hx2⟩
    · rcases le_total t y.timestamp with hle | hle
      · exact Or.inr ⟨y, List.mem_cons_self y ys, by rw [hstep, h, max_eq_right hle]⟩
      · exact Or.inl (by rw [hstep, h, max_eq_left hle])
    · exact Or.inr ⟨x, List.mem_cons_of_mem y hx, by rw [hstep, hx2]⟩

/-- The function `maxTimestamp` really is the batch maximum: it bounds
every element and is attained by one of them. -/
theorem maxTimestamp_isMax (m : NativeMessage) (ms : List NativeMessage) :
    (∀ x ∈ m :: ms, x.timestamp ≤ maxTimestamp m ms) ∧
      maxTimestamp m ms ∈ (m :: ms).map (fun x => x.timestamp) := by
  constructor
  · intro x hx
    rcases List.mem_cons.mp hx with h | h
    · subst h; exact le_foldMaxTs _ _
    · exact mem_le_foldMaxTs _ _ x h
  · rcases foldMaxTs_eq_or_mem m.timestamp ms with h | ⟨x, hx, hx2⟩
    · exact List.mem_map.mpr ⟨m, List.mem_cons_self m ms, h.symm⟩
    · exact List.mem_map.mpr ⟨x, List.mem_cons_of_mem m hx, hx2.symm⟩

/-! ### Store-level helper lemmas -/

theorem mem_existingIdsOf (store : Store) (cid i : String) :
    i ∈ existingIdsOf store cid ↔ (cid, i) ∈ rowPairs store.messages := by
  simp only [existingIdsOf, rowPairs, List.mem_map, List.mem_filter, decide_eq_true_eq,
    Prod.mk.injEq]
  constructor
  · rintro ⟨r, ⟨hr, hcid⟩, hi⟩
    exact ⟨r, hr, hcid, hi⟩
  · rintro ⟨r, hr, hcid, hi⟩
    exact ⟨r, ⟨hr, hcid⟩, hi⟩

theorem existingIdsOf_sublist {s1 s2 : Store} (h : List.Sublist s1.messages s2.messages)
    (cid : String) :
    List.Sublist (existingIdsOf s1 cid) (existingIdsOf s2 cid) :=
  List.Sublist.map _ (List.Sublist.filter _ h)

theorem updateLastMessageAt_messages (s : Store) (cid : String) (t : Int) :
    (updateLastMessageAt s cid t).messages = s.messages := rfl

theorem filter_map_update_self (l : List Conversation) (cid : String) (t : Int) :
    (l.map (fun c => if c.id = cid then { c with last_message_at := t } else c)).filter
        (fun c => c.id = cid) =
      (l.filter (fun c => c.id = cid)).map (fun c => { c with last_message_at := t }) := by
  induction l with
  | nil => rfl
  | cons c cs ih =>
    by_cases h : c.id = cid
    · simp [h, ih]
    · simp [h, ih]

theorem filter_map_update_ne (l : List Conversation) (cid cid2 : String) (t : Int)
    (hne : cid2 ≠ cid) :
    (l.map (fun c => if c.id = cid then { c with last_message_at := t } else c)).filter
        (fun c => c.id = cid2) = l.filter (fun c => c.id = cid2) := by
  induction l with
  | nil => rfl
  | cons c cs ih =>
    by_cases h : c.id = cid
    · have h2 : ¬ c.id = cid2 := fun hcontra => hne (hcontra ▸ h ▸ rfl)
      simp [h, h2, Ne.symm hne, ih]
    · by_cases h2 : c.id = cid2
      · simp [h, h2, hne, ih]
      · simp [h, h2, ih]

/-! ### Path lemmas for the single-conversation sync -/

theorem syncConversationHistory_notFound (env : Env) (store : Store) (cid : String)
    (hget : store.conversations.filter (fun c => c.id = cid) = []) :
    syncConversationHistory env store cid =
      (if !env.connected then (.disconnected, store, []) else (.notFound, store, [])) := by
  unfold syncConversationHistory
  rw [hget]

theorem syncConversationHistory_chatNotFound (env : Env) (store : Store) (cid : String)
    (conversation : Conversation)
    (hconn : env.connected = true)
    (hget : store.conversations.filter (fun c => c.id = cid) = [conversation])
    (hchat : findTargetChat env.chats conversation = none) :
    syncConversationHistory env store cid = (.chatNotFound, store, []) := by
  unfold syncConversationHistory
  rw [hget]
  simp [hconn, hchat]

theorem syncConversationHistory_run (env : Env) (store : Store) (cid : String)
    (conversation : Conversation) (targetChat : Chat)
    (hconn : env.connected = true)
    (hget : store.conversations.filter (fun c => c.id = cid) = [conversation])
    (hchat : findTargetChat env.chats conversation = some targetChat)
    (hff : targetChat.fetchFails = false) :
    syncConversationHistory env store cid =
      (let messages := targetChat.messages.take 999999
       let ids : List String :=
         if env.lookupFails cid then [] else existingIdsOf store cid
       let st := saveLoop env cid conversation.user_id ids messages ⟨0, 0, store, []⟩
       match messages with
       | [] => (.ok 0 st.newMessagesSaved st.skippedMessages, st.store, st.trace)
       | m :: ms =>
         (.ok (m :: ms).length st.newMessagesSaved st.skippedMessages,
           updateLastMessageAt st.store cid (toStoreDatetime (latestMessage m ms).timestamp),
           st.trace ++
             [SyncEvent.updateTimestamp cid
               (toStoreDatetime (latestMessage m ms).timestamp)])) := by
  unfold syncConversationHistory
  rw [hget]
  by_cases h : env.lookupFails cid <;>
    simp [hconn, hchat, Chat.fetchMessages, hff, h]

/-! ### Path lemmas for the bulk sync loop body -/

theorem syncOneInBulk_noChat (env : Env) (st : BulkState) (conversation : Conversation)
    (hchat : findTargetChat env.chats conversation = none) :
    syncOneInBulk env st conversation = st := by
  unfold syncOneInBulk
  rw [hchat]

theorem syncOneInBulk_fetchFails (env : Env) (st : BulkState)
    (conversation : Conversation) (targetChat : Chat)
    (hchat : findTargetChat env.chats conversation = some targetChat)
    (hff : targetChat.fetchFails = true) :
    syncOneInBulk env st conversation = st := by
  unfold syncOneInBulk
  rw [hchat]
  simp [Chat.fetchMessages, hff]

theorem syncOneInBulk_run (env : Env) (st : BulkState) (conversation : Conversation)
    (targetChat : Chat)
    (hchat : findTargetChat env.chats conversation = some targetChat)
    (hff : targetChat.fetchFails = false) :
    syncOneInBulk env st conversation =
      (let messages := targetChat.messages.take 100
       let ids : List String :=
         if env.lookupFails conversation.id then []
         else existingIdsOf st.store conversation.id
       let s := saveLoop env conversation.id conversation.user_id ids messages
         ⟨0, 0, st.store, []⟩
       let afterUpdate : Store × List SyncEvent :=
         match messages with
         | [] => (s.store, s.trace)
         | m :: ms =>
           (updateLastMessageAt s.store conversation.id
               (toStoreDatetime (latestMessage m ms).timestamp),
             s.trace ++
               [SyncEvent.updateTimestamp conversation.id
                 (toStoreDatetime (latestMessage m ms).timestamp)])
       if s.newMessagesSaved > 0 then
         { totalNewMessages := st.totalNewMessages + s.newMessagesSaved
           conversationsSynced := st.conversationsSynced + 1
           syncResults := st.syncResults ++
             [⟨conversation.id, conversation.phone_number, s.newMessagesSaved⟩]
           store := afterUpdate.1
           trace := st.trace ++ afterUpdate.2 }
       else { st with store := afterUpdate.1, trace := st.trace ++ afterUpdate.2 }) := by
  unfold syncOneInBulk
  rw [hchat]
  by_cases h : env.lookupFails conversation.id <;>
    simp [Chat.fetchMessages, hff, h]

/-! ### Full descriptions of a happy-path run -/

/-- The timestamp-update events a pass performs for a fetched batch: none
when the batch is empty, otherwise one update to the batch maximum. -/
def updateEventsFor (cid : String) (msgs : List NativeMessage) : List SyncEvent :=
  match msgs with
  | [] => []
  | m :: ms => [SyncEvent.updateTimestamp cid (toStoreDatetime (maxTimestamp m ms))]

/-- The conversations table after the timestamp-update step of a pass for a
fetched batch. -/
def conversationsAfter (cid : String) (msgs : List NativeMessage)
    (l : List Conversation) : List Conversation :=
  match msgs with
  | [] => l
  | m :: ms => l.map (fun d => if d.id = cid then
      { d with last_message_at := toStoreDatetime (maxTimestamp m ms) } else d)

theorem syncConversationHistory_components (env : Env) (store : Store) (cid : String)
    (conversation : Conversation) (ch : Chat) (msgs : List NativeMessage)
    (ids : List String)
    (hconn : env.connected = true)
    (hget : store.conversations.filter (fun c => c.id = cid) = [conversation])
    (hchat : findTargetChat env.chats conversation = some ch)
    (hff : ch.fetchFails = false)
    (hM : ch.messages.take 999999 = msgs)
    (hids : (if env.lookupFails cid then [] else existingIdsOf store cid) = ids) :
    syncConversationHistory env store cid =
      (SyncOneResponse.ok msgs.length
          (msgs.filter (fun m => !(ids.contains m.id) && env.saveOk m.id)).length
          (msgs.filter (fun m => ids.contains m.id)).length,
        { conversations := conversationsAfter cid msgs store.conversations
          messages := store.messages ++
            (msgs.filter (fun m => !(ids.contains m.id) && env.saveOk m.id)).map
              (fun m => saveMessageRow cid m conversation.user_id) },
        (msgs.filter (fun m => !(ids.contains m.id))).map (SyncEvent.save cid) ++
          updateEventsFor cid msgs) := by
  rw [syncConversationHistory_run env store cid conversation ch hconn hget hchat hff]
  simp only [hM, hids]
  rw [saveLoop_spec]
  rcases msgs with _ | ⟨m, ms⟩
  · simp [conversationsAfter, updateEventsFor]
  · simp [conversationsAfter, updateEventsFor, updateLastMessageAt, latestMessage_timestamp]

theorem syncOneInBulk_components (env : Env) (st : BulkState) (c : Conversation)
    (ch : Chat) (msgs : List NativeMessage) (ids : List String)
    (hchat : findTargetChat env.chats c = some ch)
    (hff : ch.fetchFails = false)
    (hM : ch.messages.take 100 = msgs)
    (hids : (if env.lookupFails c.id then [] else existingIdsOf st.store c.id) = ids) :
    (syncOneInBulk env st c).store.messages = st.store.messages ++
        (msgs.filter (fun m => !(ids.contains m.id) && env.saveOk m.id)).map
          (fun m => saveMessageRow c.id m c.user_id) ∧
      (syncOneInBulk env st c).store.conversations =
        conversationsAfter c.id msgs st.store.conversations ∧
      (syncOneInBulk env st c).trace = st.trace ++
        ((msgs.filter (fun m => !(ids.contains m.id))).map (SyncEvent.save c.id) ++
          updateEventsFor c.id msgs) ∧
      (syncOneInBulk env st c).totalNewMessages = st.totalNewMessages +
        (msgs.filter (fun m => !(ids.contains m.id) && env.saveOk m.id)).length ∧
      (syncOneInBulk env st c).conversationsSynced =
        (if 0 < (msgs.filter (fun m => !(ids.contains m.id) && env.saveOk m.id)).length
         then st.conversationsSynced + 1 else st.conversationsSynced) ∧
      (syncOneInBulk env st c).syncResults =
        (if 0 < (msgs.filter (fun m => !(ids.contains m.id) && env.saveOk m.id)).length
         then st.syncResults ++ [⟨c.id, c.phone_number,
             (msgs.filter (fun m => !(ids.contains m.id) && env.saveOk m.id)).length⟩]
         else st.syncResults) := by
  rw [syncOneInBulk_run env st c ch hchat hff]
  simp only [hM, hids]
  rw [saveLoop_spec]
  rcases msgs with _ | ⟨m, ms⟩
  · simp [conversationsAfter, updateEventsFor]
  · by_cases hpos :
      0 < (((m :: ms).filter (fun m => !(decide (m.id ∈ ids)) && env.saveOk m.id)).length)
    · simp [hpos, conversationsAfter, updateEventsFor, updateLastMessageAt,
        latestMessage_timestamp]
    · have h0 : (List.filter (fun x => !(decide (x.id ∈ ids)) && env.saveOk x.id) (m :: ms)) = [] :=
        List.eq_nil_of_length_eq_zero (Nat.eq_zero_of_not_pos hpos)
      simp [hpos, conversationsAfter, updateEventsFor, updateLastMessageAt,
        latestMessage_timestamp]
      simpa using h0

/-! ### Deduplication: no re-save of stored ids, uniqueness of pairs -/

/-- Check of one trace event against a reference store: a save event must
carry an external id the reference store does not already hold for that
conversation; timestamp updates are always acceptable. -/
def eventNotResave (store0 : Store) : SyncEvent → Bool
  | .save cid m => !((existingIdsOf store0 cid).contains m.id)
  | .updateTimestamp _ _ => true

/-- No save event of `tr` re-persists an external id already present in
`store0` for its conversation. -/
def noResaveFrom (store0 : Store) (tr : List SyncEvent) : Prop :=
  tr.all (eventNotResave store0) = true

theorem noResaveFrom_nil (store0 : Store) : noResaveFrom store0 [] := rfl

theorem noResaveFrom_append (store0 : Store) {t1 t2 : List SyncEvent}
    (h1 : noResaveFrom store0 t1) (h2 : noResaveFrom store0 t2) :
    noResaveFrom store0 (t1 ++ t2) := by
  unfold noResaveFrom at h1 h2 ⊢
  rw [List.all_append, h1, h2]
  rfl

theorem noResaveFrom_update (store0 : Store) (cid : String) (t : Int) :
    noResaveFrom store0 [SyncEvent.updateTimestamp cid t] := by
  unfold noResaveFrom
  simp [eventNotResave]

/-- The save events a save loop emits never carry an id the current store
already holds for the target conversation; a fortiori, neither an id any
store whose rows embed into the current one holds. -/
theorem noResaveFrom_saveEvents (store0 storeCur : Store) (cid : String)
    (hsub : List.Sublist store0.messages storeCur.messages)
    (msgs : List NativeMessage) :
    noResaveFrom store0
      ((msgs.filter (fun m => !((existingIdsOf storeCur cid).contains m.id))).map
        (SyncEvent.save cid)) := by
  unfold noResaveFrom
  rw [List.all_eq_true]
  intro e he
  rcases List.mem_map.mp he with ⟨m, hm, rfl⟩
  have hmem := (List.mem_filter.mp hm).2
  simp only [Bool.not_eq_true'] at hmem
  rw [List.contains, List.elem_eq_mem, decide_eq_false_iff_not] at hmem
  have hnot0 : m.id ∉ existingIdsOf store0 cid := fun hin =>
    hmem ((existingIdsOf_sublist hsub cid).subset hin)
  simp [eventNotResave, hnot0]

/-- Appending the rows a save loop inserts preserves uniqueness of
`(conversation_id, message_id)` pairs, as long as the batch's external ids
are pairwise distinct. -/
theorem pairsUnique_append_saved (base : Store) (cid : String)
    (uid : Option String) (env : Env) (msgs : List NativeMessage)
    (huniq : (rowPairs base.messages).Nodup)
    (hnodup : (msgs.map (fun m => m.id)).Nodup) :
    (rowPairs (base.messages ++
      ((msgs.filter (fun m => !((existingIdsOf base cid).contains m.id) && env.saveOk m.id)).map
        (fun m => saveMessageRow cid m uid)))).Nodup := by
  have hmapped : rowPairs
      ((msgs.filter (fun m => !((existingIdsOf base cid).contains m.id) && env.saveOk m.id)).map
        (fun m => saveMessageRow cid m uid)) =
      ((msgs.filter (fun m => !((existingIdsOf base cid).contains m.id) && env.saveOk m.id)).map
        (fun m => m.id)).map (fun i => (cid, i)) := by
    simp [rowPairs, saveMessageRow, List.map_map]
  rw [rowPairs, List.map_append, ← rowPairs, ← rowPairs, hmapped]
  apply List.Nodup.append huniq
  · apply List.Nodup.map
    · intro a b hab
      exact congrArg Prod.snd hab
    · exact List.Nodup.sublist
        (List.Sublist.map _ (List.filter_sublist msgs)) hnodup
  · intro p hp1 hp2
    rcases List.mem_map.mp hp2 with ⟨i, hi, rfl⟩
    rcases List.mem_map.mp hi with ⟨m, hm, rfl⟩
    have hpred := (List.mem_filter.mp hm).2
    have hnotin : m.id ∉ existingIdsOf base cid := by
      have h5 := ((Bool.and_eq_true _ _).mp hpred).1
      simp only [Bool.not_eq_true'] at h5
      rw [List.contains, List.elem_eq_mem, decide_eq_false_iff_not] at h5
      exact h5
    exact hnotin ((mem_existingIdsOf base cid m.id).mpr hp1)

/-- The external ids of any fetched batch of a chat are pairwise distinct
when the chat's ids are. -/
theorem take_ids_nodup (ch : Chat) (n : Nat)
    (h : ((ch.messages).map (fun m => m.id)).Nodup) :
    ((ch.messages.take n).map (fun m => m.id)).Nodup := by
  rw [List.map_take]
  exact List.Nodup.sublist (List.take_sublist n _) h

/-- Invariant preservation of one bulk-loop iteration: pair uniqueness, no
re-save of ids held by the reference store, and growth of the messages
table. -/
theorem syncOneInBulk_invariant (env : Env) (store0 : Store)
    (hchats : ∀ ch ∈ env.chats, ((ch.messages).map (fun m => m.id)).Nodup)
    (hlk : ∀ cid, env.lookupFails cid = false)
    (st : BulkState) (c : Conversation)
    (h1 : (rowPairs st.store.messages).Nodup)
    (h2 : noResaveFrom store0 st.trace)
    (h3 : List.Sublist store0.messages st.store.messages) :
    (rowPairs (syncOneInBulk env st c).store.messages).Nodup ∧
      noResaveFrom store0 (syncOneInBulk env st c).trace ∧
      List.Sublist store0.messages (syncOneInBulk env st c).store.messages := by
  rcases hchat : findTargetChat env.chats c with _ | ch
  · rw [syncOneInBulk_noChat env st c hchat]
    exact ⟨h1, h2, h3⟩
  · rcases hff : ch.fetchFails with _ | _
    · have hids : (if env.lookupFails c.id then []
          else existingIdsOf st.store c.id) = existingIdsOf st.store c.id := by
        rw [hlk c.id]
        simp
      obtain ⟨hmsg, hconvs, htr, _, _, _⟩ :=
        syncOneInBulk_components env st c ch (ch.messages.take 100)
          (existingIdsOf st.store c.id) hchat hff rfl hids
      have hchmem : ch ∈ env.chats := List.mem_of_find?_eq_some hchat
      refine ⟨?_, ?_, ?_⟩
      · rw [hmsg]
        exact pairsUnique_append_saved st.store c.id c.user_id env _ h1
          (take_ids_nodup ch 100 (hchats ch hchmem))
      · rw [htr]
        apply noResaveFrom_append store0 h2
        apply noResaveFrom_append store0
          (noResaveFrom_saveEvents store0 st.store c.id h3 _)
        rcases ch.messages.take 100 with _ | ⟨m, ms⟩
        · exact noResaveFrom_nil store0
        · exact noResaveFrom_update store0 c.id _
      · rw [hmsg]
        exact List.Sublist.trans h3 (List.sublist_append_left _ _)
    · rw [syncOneInBulk_fetchFails env st c ch hchat hff]
      exact ⟨h1, h2, h3⟩

/-- Invariant for the whole bulk fold. -/
theorem bulkFold_invariant (env : Env) (store0 : Store)
    (hchats : ∀ ch ∈ env.chats, ((ch.messages).map (fun m => m.id)).Nodup)
    (hlk : ∀ cid, env.lookupFails cid = false)
    (l : List Conversation) :
    ∀ (st : BulkState),
      (rowPairs st.store.messages).Nodup →
      noResaveFrom store0 st.trace →
      List.Sublist store0.messages st.store.messages →
      ((rowPairs (l.foldl (syncOneInBulk env) st).store.messages).Nodup ∧
        noResaveFrom store0 (l.foldl (syncOneInBulk env) st).trace ∧
        List.Sublist store0.messages (l.foldl (syncOneInBulk env) st).store.messages) := by
  induction l with
  | nil => intro st h1 h2 h3; exact ⟨h1, h2, h3⟩
  | cons c cs ih =>
    intro st h1 h2 h3
    have hstep := syncOneInBulk_invariant env store0 hchats hlk st c h1 h2 h3
    exact ih _ hstep.1 hstep.2.1 hstep.2.2

/-! ### Support lemmas for idempotence and the remaining claims -/

theorem rowPairs_append (a b : List MessageRow) :
    rowPairs (a ++ b) = rowPairs a ++ rowPairs b := by
  simp [rowPairs]

/-- After a pass whose saves all succeed, every id of the batch is present in
the store for the target conversation. -/
theorem mem_existing_after_full_save (store : Store) (cid : String)
    (uid : Option String) (env : Env) (msgs : List NativeMessage)
    (hsave : ∀ i, env.saveOk i = true) (cs : List Conversation) :
    ∀ m ∈ msgs, m.id ∈ existingIdsOf
      { conversations := cs
        messages := store.messages ++
          ((msgs.filter (fun m => !((existingIdsOf store cid).contains m.id) && env.saveOk m.id)).map
            (fun m => saveMessageRow cid m uid)) } cid := by
  intro m hm
  rw [mem_existingIdsOf]
  show (cid, m.id) ∈ rowPairs (store.messages ++ _)
  rw [rowPairs_append, List.mem_append]
  by_cases hc : m.id ∈ existingIdsOf store cid
  · exact Or.inl ((mem_existingIdsOf store cid m.id).mp hc)
  · refine Or.inr ?_
    have hmf : m ∈ msgs.filter
        (fun m => !((existingIdsOf store cid).contains m.id) && env.saveOk m.id) := by
      rw [List.mem_filter]
      refine ⟨hm, ?_⟩
      rw [hsave m.id]
      simp [hc]
    exact List.mem_map.mpr ⟨saveMessageRow cid m uid,
      List.mem_map.mpr ⟨m, hmf, rfl⟩, rfl⟩

/-- If every id of the batch is already stored, the dedup filter skips the
whole batch. -/
theorem filter_contains_all (ids : List String) (msgs : List NativeMessage)
    (h : ∀ m ∈ msgs, m.id ∈ ids) :
    msgs.filter (fun m => ids.contains m.id) = msgs ∧
      (∀ p : String → Bool,
        msgs.filter (fun m => !(ids.contains m.id) && p m.id) = []) := by
  constructor
  · rw [List.filter_eq_self]
    intro m hm
    simpa using h m hm
  · intro p
    rw [List.filter_eq_nil_iff]
    intro m hm
    simp [h m hm]

/-- Chat matching only reads the phone number of the conversation row. -/
theorem findTargetChat_congr (chats : List Chat) (c1 c2 : Conversation)
    (h : c1.phone_number = c2.phone_number) :
    findTargetChat chats c1 = findTargetChat chats c2 := by
  unfold findTargetChat
  rw [h]

theorem conversationsAfter_filter_self (cid : String) (msgs : List NativeMessage)
    (l : List Conversation) :
    (conversationsAfter cid msgs l).filter (fun c => c.id = cid) =
      (match msgs with
       | [] => l.filter (fun c => c.id = cid)
       | m :: ms => (l.filter (fun c => c.id = cid)).map
           (fun c => { c with last_message_at := toStoreDatetime (maxTimestamp m ms) })) := by
  rcases msgs with _ | ⟨m, ms⟩
  · rfl
  · exact filter_map_update_self l cid (toStoreDatetime (maxTimestamp m ms))

theorem conversationsAfter_filter_ne (cid cid2 : String) (msgs : List NativeMessage)
    (l : List Conversation) (hne : cid2 ≠ cid) :
    (conversationsAfter cid msgs l).filter (fun c => c.id = cid2) =
      l.filter (fun c => c.id = cid2) := by
  rcases msgs with _ | ⟨m, ms⟩
  · rfl
  · exact filter_map_update_ne l cid cid2 (toStoreDatetime (maxTimestamp m ms)) hne

/-! ### Stripping the session suffix recovers the numeric core -/

theorem replaceFirstAux_strip (l : List Char) (h : ('@' : Char) ∉ l) :
    replaceFirstAux "@c.us".toList (l ++ "@c.us".toList) = l := by
  induction l with
  | nil => rfl
  | cons c cs ih =>
    have hc : ('@' : Char) ≠ c := fun h2 => h (by rw [h2]; exact List.mem_cons_self c cs)
    have hnp : ("@c.us".toList).isPrefixOf (c :: (cs ++ "@c.us".toList)) = false := by
      have hpat : "@c.us".toList = '@' :: ['c', '.', 'u', 's'] := rfl
      rw [hpat]
      simp [List.isPrefixOf, hc]
    rw [List.cons_append]
    show replaceFirstAux "@c.us".toList (c :: (cs ++ "@c.us".toList)) = c :: cs
    simp only [replaceFirstAux, hnp, Bool.false_eq_true, if_false]
    rw [ih (fun hm => h (List.mem_cons_of_mem c hm))]

/-- Stripping `@c.us` from `<core>@c.us` yields the numeric core, for any
core free of the `@` character. -/
theorem stripCUs_core (s : String) (h : ('@' : Char) ∉ s.toList) :
    stripCUs (s ++ "@c.us") = s := by
  unfold stripCUs
  rw [show (s ++ "@c.us").toList = s.toList ++ "@c.us".toList from rfl]
  rw [replaceFirstAux_strip s.toList h]
  cases s
  rfl

/-! ### Accounting invariants of the bulk loop -/

theorem syncOneInBulk_results (env : Env) (st : BulkState) (c : Conversation)
    (h1 : st.totalNewMessages = (st.syncResults.map (fun e => e.newMessages)).sum)
    (h2 : st.conversationsSynced = st.syncResults.length)
    (h3 : ∀ e ∈ st.syncResults, 0 < e.newMessages) :
    (syncOneInBulk env st c).totalNewMessages =
        (((syncOneInBulk env st c).syncResults).map (fun e => e.newMessages)).sum ∧
      (syncOneInBulk env st c).conversationsSynced =
        ((syncOneInBulk env st c).syncResults).length ∧
      ∀ e ∈ (syncOneInBulk env st c).syncResults, 0 < e.newMessages := by
  rcases hchat : findTargetChat env.chats c with _ | ch
  · rw [syncOneInBulk_noChat env st c hchat]
    exact ⟨h1, h2, h3⟩
  · rcases hff : ch.fetchFails with _ | _
    · obtain ⟨_, _, _, htot, hsync, hres⟩ :=
        syncOneInBulk_components env st c ch (ch.messages.take 100)
          (if env.lookupFails c.id then [] else existingIdsOf st.store c.id)
          hchat hff rfl rfl
      rw [htot, hsync, hres]
      by_cases hpos : 0 < ((ch.messages.take 100).filter
          (fun m => !((if env.lookupFails c.id then []
            else existingIdsOf st.store c.id).contains m.id) && env.saveOk m.id)).length
      · refine ⟨?_, ?_, ?_⟩
        · simp only [if_pos hpos]
          simp [h1, List.sum_append]
        · simp only [if_pos hpos]
          simp [h2]
        · intro e he
          simp only [if_pos hpos, List.mem_append, List.mem_singleton] at he
          rcases he with he | he
          · exact h3 e he
          · rw [he]
            exact hpos
      · have hn0 : ((ch.messages.take 100).filter
            (fun m => !((if env.lookupFails c.id then []
              else existingIdsOf st.store c.id).contains m.id) && env.saveOk m.id)).length = 0 :=
          Nat.eq_zero_of_not_pos hpos
        refine ⟨?_, ?_, ?_⟩
        · simp only [if_neg hpos]
          rw [hn0]
          simpa using h1
        · simp only [if_neg hpos]
          simp [h2]
        · intro e he
          simp only [if_neg hpos] at he
          exact h3 e he
    · rw [syncOneInBulk_fetchFails env st c ch hchat hff]
      exact ⟨h1, h2, h3⟩

theorem bulkFold_results (env : Env) (l : List Conversation) :
    ∀ st : BulkState,
      st.totalNewMessages = (st.syncResults.map (fun e => e.newMessages)).sum →
      st.conversationsSynced = st.syncResults.length →
      (∀ e ∈ st.syncResults, 0 < e.newMessages) →
      ((l.foldl (syncOneInBulk env) st).totalNewMessages =
          (((l.foldl (syncOneInBulk env) st).syncResults).map (fun e => e.newMessages)).sum ∧
        (l.foldl (syncOneInBulk env) st).conversationsSynced =
          ((l.foldl (syncOneInBulk env) st).syncResults).length ∧
        ∀ e ∈ (l.foldl (syncOneInBulk env) st).syncResults, 0 < e.newMessages) := by
  induction l with
  | nil => intro st h1 h2 h3; exact ⟨h1, h2, h3⟩
  | cons c cs ih =>
    intro st h1 h2 h3
    have hstep := syncOneInBulk_results env st c h1 h2 h3
    exact ih _ hstep.1 hstep.2.1 hstep.2.2

/-! ### Conversations without a matching chat are invisible to the loop -/

theorem syncOneInBulk_skip_step (env : Env) (cid0 : String) (st : BulkState)
    (c : Conversation)
    (hc : c.id = cid0 → findTargetChat env.chats c = none)
    (hres : ∀ e ∈ st.syncResults, e.conversationId ≠ cid0) :
    (∀ e ∈ (syncOneInBulk env st c).syncResults, e.conversationId ≠ cid0) ∧
      ((syncOneInBulk env st c).store.conversations.filter (fun x => x.id = cid0)) =
        st.store.conversations.filter (fun x => x.id = cid0) := by
  by_cases hid : c.id = cid0
  · rw [syncOneInBulk_noChat env st c (hc hid)]
    exact ⟨hres, rfl⟩
  · rcases hchat : findTargetChat env.chats c with _ | ch
    · rw [syncOneInBulk_noChat env st c hchat]
      exact ⟨hres, rfl⟩
    · rcases hff : ch.fetchFails with _ | _
      · obtain ⟨_, hconvs, _, _, _, hres2⟩ :=
          syncOneInBulk_components env st c ch (ch.messages.take 100)
            (if env.lookupFails c.id then [] else existingIdsOf st.store c.id)
            hchat hff rfl rfl
        constructor
        · rw [hres2]
          by_cases hpos : 0 < ((ch.messages.take 100).filter
              (fun m => !((if env.lookupFails c.id then []
                else existingIdsOf st.store c.id).contains m.id) && env.saveOk m.id)).length
          · intro e he
            simp only [if_pos hpos, List.mem_append, List.mem_singleton] at he
            rcases he with he | he
            · exact hres e he
            · rw [he]
              exact hid
          · intro e he
            simp only [if_neg hpos] at he
            exact hres e he
        · rw [hconvs]
          exact conversationsAfter_filter_ne c.id cid0 _ _ (fun h => hid h.symm)
      · rw [syncOneInBulk_fetchFails env st c ch hchat hff]
        exact ⟨hres, rfl⟩

theorem bulkFold_skips (env : Env) (cid0 : String) (l : List Conversation)
    (havoid : ∀ c ∈ l, c.id = cid0 → findTargetChat env.chats c = none) :
    ∀ st : BulkState,
      (∀ e ∈ st.syncResults, e.conversationId ≠ cid0) →
      ((∀ e ∈ (l.foldl (syncOneInBulk env) st).syncResults, e.conversationId ≠ cid0) ∧
        ((l.foldl (syncOneInBulk env) st).store.conversations.filter
            (fun x => x.id = cid0)) =
          st.store.conversations.filter (fun x => x.id = cid0)) := by
  induction l with
  | nil => intro st h; exact ⟨h, rfl⟩
  | cons c cs ih =>
    intro st h
    have hstep := syncOneInBulk_skip_step env cid0 st c
      (havoid c (List.mem_cons_self c cs)) h
    have hrest := ih (fun d hd => havoid d (List.mem_cons_of_mem c hd)) _ hstep.1
    exact ⟨hrest.1, hrest.2.trans hstep.2⟩

theorem syncConversationHistory_serverError (env : Env) (store : Store) (cid : String)
    (conversation : Conversation) (ch : Chat)
    (hconn : env.connected = true)
    (hget : store.conversations.filter (fun c => c.id = cid) = [conversation])
    (hchat : findTargetChat env.chats conversation = some ch)
    (hff : ch.fetchFails = true) :
    syncConversationHistory env store cid = (.serverError, store, []) := by
  unfold syncConversationHistory
  rw [hget]
  simp [hconn, hchat, Chat.fetchMessages, hff]

theorem syncConversationHistory_multiRow (env : Env) (store : Store) (cid : String)
    (c1 c2 : Conversation) (rest : List Conversation)
    (hget : store.conversations.filter (fun c => c.id = cid) = c1 :: c2 :: rest) :
    syncConversationHistory env store cid =
      (if !env.connected then (.disconnected, store, []) else (.notFound, store, [])) := by
  unfold syncConversationHistory
  rw [hget]

theorem syncConversationHistory_disconnected (env : Env) (store : Store) (cid : String)
    (hconn : env.connected = false) :
    syncConversationHistory env store cid = (.disconnected, store, []) := by
  unfold syncConversationHistory
  rw [hconn]
  rfl

/-! ### Concrete fixtures used by witnesses and counterexamples -/

/-- A fetched message with id `wamid1`, timestamp 100. -/
def msgA : NativeMessage := ⟨"wamid1", "hello", false, 100⟩

/-- A fetched message with id `wamid2`, timestamp 200. -/
def msgB : NativeMessage := ⟨"wamid2", "world", true, 200⟩

/-- A tracked conversation for phone number 33600000001. -/
def convW : Conversation := ⟨"c1", "33600000001", none, 0⟩

/-- The live chat matching `convW` (identifier carries the session suffix). -/
def chatW : Chat := ⟨"33600000001@c.us", [msgA, msgB], false⟩

/-- The store row for `msgA` under conversation `c1`. -/
def rowA : MessageRow := saveMessageRow "c1" msgA none

/-- A store holding only the conversation, no messages. -/
def storeW : Store := ⟨[convW], []⟩

/-- A store where `msgA` is already persisted for `c1`. -/
def storeW1 : Store := ⟨[convW], [rowA]⟩

/-- A healthy environment: connected, one matching chat, no failures. -/
def envW : Env := ⟨true, [chatW], fun _ => false, fun _ => true, false⟩

/-- Same as `envW` but the existing-identifier lookup fails. -/
def envLkFail : Env := ⟨true, [chatW], fun _ => true, fun _ => true, false⟩

/-- An environment whose only chat does not match `convW`. -/
def envNoMatch : Env := ⟨true, [⟨"99900@c.us", [], false⟩], fun _ => false, fun _ => true, false⟩

/-! ### Claims -/

/-- C8: for every conversation identifier absent from the store,
single-conversation sync returns NotFound, leaves the store untouched, emits
no persistence events, and its outcome is independent of the messaging
session (no session reads, no store writes). -/
theorem claim_C8 (env : Env) (store : Store) (cid : String)
    (hconn : env.connected = true)
    (habsent : ∀ c ∈ store.conversations, c.id ≠ cid) :
    syncConversationHistory env store cid = (SyncOneResponse.notFound, store, []) := by
  have hfilter : store.conversations.filter (fun c => c.id = cid) = [] := by
    rw [List.filter_eq_nil_iff]
    intro c hc
    simpa using habsent c hc
  rw [syncConversationHistory_notFound env store cid hfilter]
  simp [hconn]

/-- Witness for C8 at a concrete store and id. -/
theorem claim_C8_witness :
    syncConversationHistory envW storeW "missing" =
      (SyncOneResponse.notFound, storeW, []) :=
  claim_C8 envW storeW "missing" rfl (by decide)

/-- C9: single-conversation sync matches the live chat by comparing the
`@c.us`-stripped chat identifier with the stripped phone number: when no
chat matches it returns ChatNotFound, a selected chat always satisfies the
stripped equality and comes from the session's chat list, and stripping
recovers the numeric core of a well-formed identifier. -/
theorem claim_C9 (env : Env) (store : Store) (cid : String)
    (conversation : Conversation)
    (hconn : env.connected = true)
    (hget : store.conversations.filter (fun c => c.id = cid) = [conversation]) :
    ((∀ ch ∈ env.chats,
        stripCUs ch.id_serialized ≠ stripCUs conversation.phone_number) →
      syncConversationHistory env store cid = (SyncOneResponse.chatNotFound, store, [])) ∧
      (∀ tc, findTargetChat env.chats conversation = some tc →
        stripCUs tc.id_serialized = stripCUs conversation.phone_number ∧ tc ∈ env.chats) ∧
      (∀ s : String, ('@' : Char) ∉ s.toList → stripCUs (s ++ "@c.us") = s) := by
  refine ⟨?_, ?_, ?_⟩
  · intro hno
    have hnone : findTargetChat env.chats conversation = none := by
      unfold findTargetChat
      rw [List.find?_eq_none]
      intro ch hch
      simpa using hno ch hch
    exact syncConversationHistory_chatNotFound env store cid conversation hconn hget hnone
  · intro tc htc
    refine ⟨?_, List.mem_of_find?_eq_some htc⟩
    have h2 := List.find?_some htc
    simpa using h2
  · exact fun s hs => stripCUs_core s hs

/-- Witness for C9: a non-matching chat list yields ChatNotFound, and
stripping the suffix of a concrete identifier yields its numeric core. -/
theorem claim_C9_witness :
    syncConversationHistory envNoMatch storeW "c1" =
        (SyncOneResponse.chatNotFound, storeW, []) ∧
      stripCUs ("33600000001" ++ "@c.us") = "33600000001" := by
  have h := claim_C9 envNoMatch storeW "c1" convW rfl (by decide)
  exact ⟨h.1 (by decide), h.2.2 "33600000001" (by decide)⟩

/-- C3: after a sync pass whose fetched batch is nonempty, the target
conversation's last_message_at equals the batch's maximum timestamp
(converted to the store form), regardless of how many batch messages were
already persisted; on an empty batch nothing is updated and the result
reports zero new and zero skipped.  Both entry points behave this way. -/
theorem claim_C3 (env : Env) (store : Store) (cid : String)
    (conversation : Conversation) (ch : Chat)
    (hconn : env.connected = true)
    (hget : store.conversations.filter (fun c => c.id = cid) = [conversation])
    (hchat : findTargetChat env.chats conversation = some ch)
    (hff : ch.fetchFails = false) :
    (∀ m ms, ch.messages.take 999999 = m :: ms →
      ((syncConversationHistory env store cid).2.1).conversations.filter
          (fun c => c.id = cid) =
        [{ conversation with last_message_at := toStoreDatetime (maxTimestamp m ms) }] ∧
      (∀ x ∈ m :: ms, x.timestamp ≤ maxTimestamp m ms) ∧
      maxTimestamp m ms ∈ (m :: ms).map (fun x => x.timestamp)) ∧
    (ch.messages.take 999999 = [] →
      syncConversationHistory env store cid = (SyncOneResponse.ok 0 0 0, store, [])) ∧
    (∀ (st : BulkState) (c2 : Conversation) (ch2 : Chat) (m : NativeMessage)
        (ms : List NativeMessage),
      findTargetChat env.chats c2 = some ch2 → ch2.fetchFails = false →
      ch2.messages.take 100 = m :: ms →
      ((syncOneInBulk env st c2).store.conversations.filter (fun x => x.id = c2.id)) =
        (st.store.conversations.filter (fun x => x.id = c2.id)).map
          (fun d => { d with last_message_at := toStoreDatetime (maxTimestamp m ms) })) ∧
    (∀ (st : BulkState) (c2 : Conversation) (ch2 : Chat),
      findTargetChat env.chats c2 = some ch2 → ch2.fetchFails = false →
      ch2.messages.take 100 = [] → syncOneInBulk env st c2 = st) := by
  refine ⟨?_, ?_, ?_, ?_⟩
  · intro m ms hM
    have hcomp := syncConversationHistory_components env store cid conversation ch
      (m :: ms) (if env.lookupFails cid then [] else existingIdsOf store cid)
      hconn hget hchat hff hM rfl
    refine ⟨?_, (maxTimestamp_isMax m ms).1, (maxTimestamp_isMax m ms).2⟩
    rw [hcomp]
    show (conversationsAfter cid (m :: ms) store.conversations).filter
      (fun c => c.id = cid) = _
    rw [conversationsAfter_filter_self, hget]
    rfl
  · intro hM
    have hcomp := syncConversationHistory_components env store cid conversation ch
      [] (if env.lookupFails cid then [] else existingIdsOf store cid)
      hconn hget hchat hff hM rfl
    rw [hcomp]
    simp [conversationsAfter, updateEventsFor]
  · intro st c2 ch2 m ms h1 h2 h3
    obtain ⟨_, hconvs, _, _, _, _⟩ := syncOneInBulk_components env st c2 ch2
      (m :: ms) (if env.lookupFails c2.id then [] else existingIdsOf st.store c2.id)
      h1 h2 h3 rfl
    rw [hconvs]
    exact conversationsAfter_filter_self c2.id (m :: ms) st.store.conversations
  · intro st c2 ch2 h1 h2 h3
    rw [syncOneInBulk_run env st c2 ch2 h1 h2]
    simp [h3, saveLoop]

/-- Witness for C3: syncing conversation c1 over the batch `[msgA, msgB]`
(timestamps 100 and 200) sets its last_message_at to the converted maximum
200. -/
theorem claim_C3_witness :
    ((syncConversationHistory envW storeW "c1").2.1).conversations.filter
        (fun c => c.id = "c1") =
      [{ convW with last_message_at := toStoreDatetime (maxTimestamp msgA [msgB]) }] :=
  ((claim_C3 envW storeW "c1" convW chatW rfl (by decide) (by decide) rfl).1
    msgA [msgB] rfl).1

/-- C4: within one single-conversation pass the deduplicated messages form
an order-preserving subsequence of the fetched batch, the pass emits their
persistence attempts in that order, and the timestamp update comes last,
after every persistence attempt. -/
theorem claim_C4 (env : Env) (store : Store) (cid : String)
    (conversation : Conversation) (ch : Chat) (msgs : List NativeMessage)
    (ids : List String)
    (hconn : env.connected = true)
    (hget : store.conversations.filter (fun c => c.id = cid) = [conversation])
    (hchat : findTargetChat env.chats conversation = some ch)
    (hff : ch.fetchFails = false)
    (hM : ch.messages.take 999999 = msgs)
    (hids : (if env.lookupFails cid then [] else existingIdsOf store cid) = ids) :
    List.Sublist (msgs.filter (fun m => !(ids.contains m.id))) msgs ∧
      (syncConversationHistory env store cid).2.2 =
        (msgs.filter (fun m => !(ids.contains m.id))).map (SyncEvent.save cid) ++
          updateEventsFor cid msgs := by
  have hcomp := syncConversationHistory_components env store cid conversation ch
    msgs ids hconn hget hchat hff hM hids
  refine ⟨List.filter_sublist msgs, ?_⟩
  rw [hcomp]

/-- Witness for C4: with `msgA` already stored, the pass attempts only
`msgB` and updates the timestamp afterwards. -/
theorem claim_C4_witness :
    (syncConversationHistory envW storeW1 "c1").2.2 =
      [SyncEvent.save "c1" msgB, SyncEvent.updateTimestamp "c1" 200000] := by
  have h := (claim_C4 envW storeW1 "c1" convW chatW [msgA, msgB] ["wamid1"]
    rfl (by decide) (by decide) rfl rfl (by decide)).2
  rw [h]
  decide

/-- The conversation row as it stands after the timestamp-update step of a
pass over the batch `msgs`. -/
def convAfterOne (msgs : List NativeMessage) (conversation : Conversation) : Conversation :=
  match msgs with
  | [] => conversation
  | m :: ms => { conversation with last_message_at := toStoreDatetime (maxTimestamp m ms) }

theorem convAfterOne_phone (msgs : List NativeMessage) (c : Conversation) :
    (convAfterOne msgs c).phone_number = c.phone_number := by
  cases msgs <;> rfl

theorem conversationsAfter_filter_single (cid : String) (msgs : List NativeMessage)
    (l : List Conversation) (conversation : Conversation)
    (hget : l.filter (fun c => c.id = cid) = [conversation]) :
    (conversationsAfter cid msgs l).filter (fun c => c.id = cid) =
      [convAfterOne msgs conversation] := by
  rcases msgs with _ | ⟨m, ms⟩
  · exact hget
  · show (conversationsAfter cid (m :: ms) l).filter (fun c => c.id = cid) = _
    rw [conversationsAfter_filter_self, hget]
    rfl

/-- A single-conversation pass over a batch whose ids are all already stored
reports zero new messages and skips the whole batch. -/
theorem sync_fullyPersisted (env : Env) (store : Store) (cid : String)
    (conversation : Conversation) (ch : Chat)
    (hconn : env.connected = true)
    (hget : store.conversations.filter (fun c => c.id = cid) = [conversation])
    (hchat : findTargetChat env.chats conversation = some ch)
    (hff : ch.fetchFails = false)
    (hlkcid : env.lookupFails cid = false)
    (hall : ∀ m ∈ ch.messages.take 999999, m.id ∈ existingIdsOf store cid) :
    (syncConversationHistory env store cid).1 =
      SyncOneResponse.ok (ch.messages.take 999999).length 0
        (ch.messages.take 999999).length := by
  have hids : (if env.lookupFails cid then [] else existingIdsOf store cid) =
      existingIdsOf store cid := by
    rw [hlkcid]
    simp
  have hcomp := syncConversationHistory_components env store cid conversation ch
    (ch.messages.take 999999) (existingIdsOf store cid) hconn hget hchat hff rfl hids
  rw [hcomp]
  have hfc := filter_contains_all (existingIdsOf store cid) (ch.messages.take 999999) hall
  show SyncOneResponse.ok _ _ _ = _
  rw [hfc.2 env.saveOk, hfc.1]
  rfl

/-- C2: single-conversation sync is idempotent at the message level: when a
pass whose saves all succeed is followed by a second pass fetching the same
batch, the second pass reports zero new messages and skips the whole
batch. -/
theorem claim_C2 (env : Env) (store : Store) (cid : String)
    (conversation : Conversation) (ch : Chat)
    (hconn : env.connected = true)
    (hget : store.conversations.filter (fun c => c.id = cid) = [conversation])
    (hchat : findTargetChat env.chats conversation = some ch)
    (hff : ch.fetchFails = false)
    (hsave : ∀ i, env.saveOk i = true)
    (hlk : ∀ d, env.lookupFails d = false) :
    (syncConversationHistory env
        (syncConversationHistory env store cid).2.1 cid).1 =
      SyncOneResponse.ok (ch.messages.take 999999).length 0
        (ch.messages.take 999999).length := by
  have hids1 : (if env.lookupFails cid then [] else existingIdsOf store cid) =
      existingIdsOf store cid := by
    rw [hlk cid]
    simp
  have hcomp1 := syncConversationHistory_components env store cid conversation ch
    (ch.messages.take 999999) (existingIdsOf store cid) hconn hget hchat hff rfl hids1
  rw [hcomp1]
  refine sync_fullyPersisted env _ cid
    (convAfterOne (ch.messages.take 999999) conversation) ch hconn ?_ ?_ hff (hlk cid) ?_
  · exact conversationsAfter_filter_single cid (ch.messages.take 999999)
      store.conversations conversation hget
  · rw [findTargetChat_congr env.chats _ conversation
      (convAfterOne_phone (ch.messages.take 999999) conversation)]
    exact hchat
  · exact mem_existing_after_full_save store cid conversation.user_id env
      (ch.messages.take 999999) hsave _

/-- Witness for C2: double sync of c1 over the two-message batch yields
zero new and two skipped on the second pass. -/
theorem claim_C2_witness :
    (syncConversationHistory envW
        (syncConversationHistory envW storeW "c1").2.1 "c1").1 =
      SyncOneResponse.ok 2 0 2 := by
  have h := claim_C2 envW storeW "c1" convW chatW rfl (by decide) (by decide) rfl
    (fun i => rfl) (fun d => rfl)
  rw [h]
  decide

/-- Counterexample to C5: with the existing-identifier lookup failing and
`msgA` already stored, the single-conversation sync does NOT surface a
server error: it returns the normal 200 payload, re-saves the stored
message, and thereby breaks pair uniqueness. -/
theorem claim_C5_counterexample :
    (syncConversationHistory envLkFail storeW1 "c1").1 = SyncOneResponse.ok 2 2 0 ∧
      ¬ pairsUnique (syncConversationHistory envLkFail storeW1 "c1").2.1 ∧
      (syncConversationHistory envLkFail storeW1 "c1").1 ≠ SyncOneResponse.serverError := by
  decide

/-- C5 (amended): a failing existing-identifier lookup does not propagate as
an exception on either path; the orchestrator silently degrades to an empty
deduplication set: the single pass reports zero skipped, attempts every
fetched message and returns the normal 200 payload, and the bulk loop
processes the conversation the same way and simply continues with the next
one. -/
theorem claim_C5_amended (env : Env) (store : Store) (cid : String)
    (conversation : Conversation) (ch : Chat)
    (hconn : env.connected = true)
    (hget : store.conversations.filter (fun c => c.id = cid) = [conversation])
    (hchat : findTargetChat env.chats conversation = some ch)
    (hff : ch.fetchFails = false)
    (hlkf : env.lookupFails cid = true) :
    (syncConversationHistory env store cid).1 =
        SyncOneResponse.ok (ch.messages.take 999999).length
          ((ch.messages.take 999999).filter (fun m => env.saveOk m.id)).length 0 ∧
      (syncConversationHistory env store cid).2.2 =
        (ch.messages.take 999999).map (SyncEvent.save cid) ++
          updateEventsFor cid (ch.messages.take 999999) ∧
      (∀ (st : BulkState) (c2 : Conversation) (ch2 : Chat),
        findTargetChat env.chats c2 = some ch2 → ch2.fetchFails = false →
        env.lookupFails c2.id = true →
        (syncOneInBulk env st c2).trace = st.trace ++
          ((ch2.messages.take 100).map (SyncEvent.save c2.id) ++
            updateEventsFor c2.id (ch2.messages.take 100))) ∧
      (∀ (st : BulkState) (c2 : Conversation) (l : List Conversation),
        (c2 :: l).foldl (syncOneInBulk env) st =
          l.foldl (syncOneInBulk env) (syncOneInBulk env st c2)) := by
  have hids : (if env.lookupFails cid then [] else existingIdsOf store cid) =
      ([] : List String) := by
    rw [hlkf]
    simp
  have hcomp := syncConversationHistory_components env store cid conversation ch
    (ch.messages.take 999999) [] hconn hget hchat hff rfl hids
  have hA : ∀ (msgs : List NativeMessage),
      msgs.filter (fun m => !(([] : List String).contains m.id) && env.saveOk m.id) =
        msgs.filter (fun m => env.saveOk m.id) := by
    intro msgs
    apply List.filter_congr
    intro a _
    rfl
  have hB : ∀ (msgs : List NativeMessage),
      msgs.filter (fun m => !(([] : List String).contains m.id)) = msgs := by
    intro msgs
    rw [List.filter_eq_self]
    intro a _
    rfl
  have hC : (ch.messages.take 999999).filter
      (fun m => (([] : List String).contains m.id)) = [] := by
    rw [List.filter_eq_nil_iff]
    intro a _
    simp [List.contains]
  refine ⟨?_, ?_, ?_, ?_⟩
  · rw [hcomp]
    show SyncOneResponse.ok _ _ _ = _
    rw [hA, hC]
    rfl
  · rw [hcomp]
    show _ ++ _ = _
    rw [hB]
  · intro st c2 ch2 hchat2 hff2 hlkf2
    have hids2 : (if env.lookupFails c2.id then [] else existingIdsOf st.store c2.id) =
        ([] : List String) := by
      rw [hlkf2]
      simp
    obtain ⟨_, _, htr, _, _, _⟩ := syncOneInBulk_components env st c2 ch2
      (ch2.messages.take 100) [] hchat2 hff2 rfl hids2
    rw [htr, hB]
  · intro st c2 l
    rfl

/-- Witness for the amended C5: with the lookup failing, the pass attempts
both fetched messages even though one is already stored. -/
theorem claim_C5_witness :
    (syncConversationHistory envLkFail storeW1 "c1").2.2 =
      [SyncEvent.save "c1" msgA, SyncEvent.save "c1" msgB,
        SyncEvent.updateTimestamp "c1" 200000] := by
  have h := (claim_C5_amended envLkFail storeW1 "c1" convW chatW rfl (by decide)
    (by decide) rfl rfl).2.1
  rw [h]
  decide

theorem noResaveFrom_updateEvents (store0 : Store) (cid : String)
    (msgs : List NativeMessage) :
    noResaveFrom store0 (updateEventsFor cid msgs) := by
  rcases msgs with _ | ⟨m, ms⟩
  · exact noResaveFrom_nil store0
  · exact noResaveFrom_update store0 cid _

theorem syncAllConversationsHistory_run (env : Env) (store : Store)
    (hconn : env.connected = true) (hpf : env.pageFails = false) :
    syncAllConversationsHistory env store =
      (SyncAllResponse.ok
          ((conversationsPage store).foldl (syncOneInBulk env)
            ⟨0, 0, [], store, []⟩).totalNewMessages
          ((conversationsPage store).foldl (syncOneInBulk env)
            ⟨0, 0, [], store, []⟩).conversationsSynced
          (conversationsPage store).length
          ((conversationsPage store).foldl (syncOneInBulk env)
            ⟨0, 0, [], store, []⟩).syncResults,
        ((conversationsPage store).foldl (syncOneInBulk env)
          ⟨0, 0, [], store, []⟩).store,
        ((conversationsPage store).foldl (syncOneInBulk env)
          ⟨0, 0, [], store, []⟩).trace) := by
  unfold syncAllConversationsHistory
  simp [hconn, hpf]

theorem syncAllConversationsHistory_disconnected (env : Env) (store : Store)
    (hconn : env.connected = false) :
    syncAllConversationsHistory env store = (SyncAllResponse.disconnected, store, []) := by
  unfold syncAllConversationsHistory
  rw [hconn]
  rfl

theorem syncAllConversationsHistory_dbError (env : Env) (store : Store)
    (hconn : env.connected = true) (hpf : env.pageFails = true) :
    syncAllConversationsHistory env store = (SyncAllResponse.dbError, store, []) := by
  unfold syncAllConversationsHistory
  simp [hconn, hpf]

/-- C1: in any sync pass, single or bulk, no message whose external id is
already in the store's identifier set for its conversation at the start of
the pass is ever passed to saveMessage again, and the pass preserves
uniqueness of `(conversation_id, message_id)` pairs, provided the session's
batches carry pairwise distinct ids and the identifier lookups succeed. -/
theorem claim_C1 (env : Env) (store : Store)
    (hchats : ∀ ch ∈ env.chats, ((ch.messages).map (fun m => m.id)).Nodup)
    (hlk : ∀ d, env.lookupFails d = false)
    (huniq : pairsUnique store) :
    (∀ cid, noResaveFrom store (syncConversationHistory env store cid).2.2 ∧
        pairsUnique (syncConversationHistory env store cid).2.1) ∧
      (noResaveFrom store (syncAllConversationsHistory env store).2.2 ∧
        pairsUnique (syncAllConversationsHistory env store).2.1) := by
  constructor
  · intro cid
    rcases hconn : env.connected with _ | _
    · rw [syncConversationHistory_disconnected env store cid hconn]
      exact ⟨noResaveFrom_nil store, huniq⟩
    · rcases hflt : store.conversations.filter (fun c => c.id = cid) with _ | ⟨c1, rest⟩
      · rw [syncConversationHistory_notFound env store cid hflt]
        simp only [hconn, Bool.not_true, Bool.false_eq_true, if_false]
        exact ⟨noResaveFrom_nil store, huniq⟩
      · rcases rest with _ | ⟨c2, rest2⟩
        · rcases hchat : findTargetChat env.chats c1 with _ | ch
          · rw [syncConversationHistory_chatNotFound env store cid c1 hconn hflt hchat]
            exact ⟨noResaveFrom_nil store, huniq⟩
          · rcases hff : ch.fetchFails with _ | _
            · have hids : (if env.lookupFails cid then [] else existingIdsOf store cid) =
                  existingIdsOf store cid := by
                rw [hlk cid]
                simp
              have hcomp := syncConversationHistory_components env store cid c1 ch
                (ch.messages.take 999999) (existingIdsOf store cid)
                hconn hflt hchat hff rfl hids
              rw [hcomp]
              constructor
              · exact noResaveFrom_append store
                  (noResaveFrom_saveEvents store store cid (List.Sublist.refl _) _)
                  (noResaveFrom_updateEvents store cid _)
              · exact pairsUnique_append_saved store cid c1.user_id env
                  (ch.messages.take 999999) huniq
                  (take_ids_nodup ch 999999 (hchats ch (List.mem_of_find?_eq_some hchat)))
            · rw [syncConversationHistory_serverError env store cid c1 ch hconn hflt hchat hff]
              exact ⟨noResaveFrom_nil store, huniq⟩
        · rw [syncConversationHistory_multiRow env store cid c1 c2 rest2 hflt]
          simp only [hconn, Bool.not_true, Bool.false_eq_true, if_false]
          exact ⟨noResaveFrom_nil store, huniq⟩
  · rcases hconn : env.connected with _ | _
    · rw [syncAllConversationsHistory_disconnected env store hconn]
      exact ⟨noResaveFrom_nil store, huniq⟩
    · rcases hpf : env.pageFails with _ | _
      · rw [syncAllConversationsHistory_run env store hconn hpf]
        have hinv := bulkFold_invariant env store hchats hlk (conversationsPage store)
          ⟨0, 0, [], store, []⟩ huniq (noResaveFrom_nil store) (List.Sublist.refl _)
        exact ⟨hinv.2.1, hinv.1⟩
      · rw [syncAllConversationsHistory_dbError env store hconn hpf]
        exact ⟨noResaveFrom_nil store, huniq⟩

/-- Witness for C1 at a concrete store with one persisted message. -/
theorem claim_C1_witness :
    (noResaveFrom storeW1 (syncConversationHistory envW storeW1 "c1").2.2 ∧
        pairsUnique (syncConversationHistory envW storeW1 "c1").2.1) ∧
      (noResaveFrom storeW1 (syncAllConversationsHistory envW storeW1).2.2 ∧
        pairsUnique (syncAllConversationsHistory envW storeW1).2.1) := by
  have h := claim_C1 envW storeW1 (by decide) (fun d => rfl) (by decide)
  exact ⟨h.1 "c1", h.2⟩

/-- A chat for `convW` whose only message is the already-stored `msgA`. -/
def chatA : Chat := ⟨"33600000001@c.us", [msgA], false⟩

/-- Environment whose matching chat holds only the already-stored message. -/
def envC6 : Env := ⟨true, [chatA], fun _ => false, fun _ => true, false⟩

/-- Counterexample to C6: a bulk run that processes its one conversation
(the timestamp update is performed, `totalConversationsChecked` is 1) but
yields NO per-conversation entry, because no new message was saved. -/
theorem claim_C6_counterexample :
    (syncAllConversationsHistory envC6 storeW1).1 = SyncAllResponse.ok 0 0 1 [] ∧
      (syncAllConversationsHistory envC6 storeW1).2.2 =
        [SyncEvent.updateTimestamp "c1" 100000] := by
  decide

/-- C6 (amended): bulk sync returns the loop's grand totals over the page;
a per-conversation entry exists exactly for the conversations that saved at
least one new message: every entry is strictly positive, the grand total is
the sum of the entries, and conversationsSynced counts the entries. -/
theorem claim_C6_amended (env : Env) (store : Store)
    (hconn : env.connected = true) (hpf : env.pageFails = false) :
    (syncAllConversationsHistory env store).1 =
        SyncAllResponse.ok
          ((conversationsPage store).foldl (syncOneInBulk env)
            ⟨0, 0, [], store, []⟩).totalNewMessages
          ((conversationsPage store).foldl (syncOneInBulk env)
            ⟨0, 0, [], store, []⟩).conversationsSynced
          (conversationsPage store).length
          ((conversationsPage store).foldl (syncOneInBulk env)
            ⟨0, 0, [], store, []⟩).syncResults ∧
      ((conversationsPage store).foldl (syncOneInBulk env)
          ⟨0, 0, [], store, []⟩).totalNewMessages =
        ((((conversationsPage store).foldl (syncOneInBulk env)
            ⟨0, 0, [], store, []⟩).syncResults).map (fun e => e.newMessages)).sum ∧
      ((conversationsPage store).foldl (syncOneInBulk env)
          ⟨0, 0, [], store, []⟩).conversationsSynced =
        (((conversationsPage store).foldl (syncOneInBulk env)
            ⟨0, 0, [], store, []⟩).syncResults).length ∧
      ∀ e ∈ ((conversationsPage store).foldl (syncOneInBulk env)
          ⟨0, 0, [], store, []⟩).syncResults, 0 < e.newMessages := by
  have hacc := bulkFold_results env (conversationsPage store) ⟨0, 0, [], store, []⟩
    rfl rfl (fun e he => absurd he (List.not_mem_nil e))
  exact ⟨congrArg Prod.fst (syncAllConversationsHistory_run env store hconn hpf),
    hacc.1, hacc.2.1, hacc.2.2⟩

/-- Witness for the amended C6: a bulk run that saves two messages for its
one conversation reports total 2, one synced conversation, one checked, and
a single positive entry. -/
theorem claim_C6_witness :
    (syncAllConversationsHistory envW storeW).1 =
      SyncAllResponse.ok 2 1 1 [⟨"c1", "33600000001", 2⟩] := by
  have h := (claim_C6_amended envW storeW rfl rfl).1
  rw [h]
  decide

/-- C7: a conversation whose fetch rejects is absorbed by the bulk loop:
its iteration leaves the accumulator untouched, and the whole fold over any
page equals the fold over the page without it, so every other conversation
is still processed and the totals exclude the failed conversation. -/
theorem claim_C7 (env : Env) (c : Conversation) (ch : Chat)
    (hchat : findTargetChat env.chats c = some ch)
    (hff : ch.fetchFails = true) :
    (∀ st : BulkState, syncOneInBulk env st c = st) ∧
      (∀ (l1 l2 : List Conversation) (st : BulkState),
        (l1 ++ c :: l2).foldl (syncOneInBulk env) st =
          (l1 ++ l2).foldl (syncOneInBulk env) st) := by
  have hid : ∀ st, syncOneInBulk env st c = st := fun st =>
    syncOneInBulk_fetchFails env st c ch hchat hff
  refine ⟨hid, ?_⟩
  intro l1 l2 st
  rw [List.foldl_append, List.foldl_append, List.foldl_cons, hid]

/-- Conversations and chats for the five-conversation bulk scenario; the
third chat's fetch rejects. -/
def conv1 : Conversation := ⟨"d1", "101", none, 0⟩

def conv2 : Conversation := ⟨"d2", "102", none, 0⟩

def conv3 : Conversation := ⟨"d3", "103", none, 0⟩

def conv4 : Conversation := ⟨"d4", "104", none, 0⟩

def conv5 : Conversation := ⟨"d5", "105", none, 0⟩

def chat3 : Chat := ⟨"103@c.us", [msgA], true⟩

def envC7 : Env :=
  ⟨true,
    [⟨"101@c.us", [msgA], false⟩, ⟨"102@c.us", [msgA], false⟩, chat3,
      ⟨"104@c.us", [msgA], false⟩, ⟨"105@c.us", [msgA], false⟩],
    fun _ => false, fun _ => true, false⟩

/-- Witness for C7: in the five-conversation page where conversation 3's
fetch rejects, the fold equals the fold over the other four. -/
theorem claim_C7_witness :
    List.foldl (syncOneInBulk envC7) ⟨0, 0, [], storeW, []⟩
        [conv1, conv2, conv3, conv4, conv5] =
      List.foldl (syncOneInBulk envC7) ⟨0, 0, [], storeW, []⟩
        [conv1, conv2, conv4, conv5] := by
  have h := (claim_C7 envC7 conv3 chat3 (by decide) rfl).2
  exact h [conv1, conv2] [conv4, conv5] ⟨0, 0, [], storeW, []⟩

/-- C10: a tracked conversation with no matching live chat is skipped
silently by bulk sync: its iteration is a no-op, the loop continues, it gets
no syncResults entry and no timestamp update, yet it still counts toward
totalConversationsChecked; single-conversation sync instead surfaces the
same situation as ChatNotFound. -/
theorem claim_C10 (env : Env) (store : Store) (conv : Conversation)
    (hconn : env.connected = true) (hpf : env.pageFails = false)
    (hmem : conv ∈ conversationsPage store)
    (hget : store.conversations.filter (fun c => c.id = conv.id) = [conv])
    (hnochat : ∀ c ∈ conversationsPage store, c.id = conv.id →
      findTargetChat env.chats c = none) :
    (∀ st : BulkState, syncOneInBulk env st conv = st) ∧
      totalChecked (syncAllConversationsHistory env store).1 =
        some ((conversationsPage store).length) ∧
      0 < (conversationsPage store).length ∧
      (∀ e ∈ ((conversationsPage store).foldl (syncOneInBulk env)
          ⟨0, 0, [], store, []⟩).syncResults, e.conversationId ≠ conv.id) ∧
      ((conversationsPage store).foldl (syncOneInBulk env)
          ⟨0, 0, [], store, []⟩).store.conversations.filter (fun x => x.id = conv.id) =
        store.conversations.filter (fun x => x.id = conv.id) ∧
      syncConversationHistory env store conv.id =
        (SyncOneResponse.chatNotFound, store, []) := by
  have hskips := bulkFold_skips env conv.id (conversationsPage store) hnochat
    ⟨0, 0, [], store, []⟩ (fun e he => absurd he (List.not_mem_nil e))
  refine ⟨?_, ?_, ?_, hskips.1, hskips.2, ?_⟩
  · intro st
    exact syncOneInBulk_noChat env st conv (hnochat conv hmem rfl)
  · rw [syncAllConversationsHistory_run env store hconn hpf]
    rfl
  · exact List.length_pos.mpr (List.ne_nil_of_mem hmem)
  · exact syncConversationHistory_chatNotFound env store conv.id conv hconn hget
      (hnochat conv hmem rfl)

/-- Witness for C10: with no matching chat, bulk still counts the checked
conversation while single sync reports ChatNotFound. -/
theorem claim_C10_witness :
    totalChecked (syncAllConversationsHistory envNoMatch storeW).1 = some 1 ∧
      syncConversationHistory envNoMatch storeW "c1" =
        (SyncOneResponse.chatNotFound, storeW, []) := by
  have h := claim_C10 envNoMatch storeW convW rfl rfl (by decide) (by decide) (by decide)
  refine ⟨?_, h.2.2.2.2.2⟩
  rw [h.2.1]
  decide
